import Mathlib

/-
Verification of the variant library (type_algorithms.hpp, unified.hpp,
exceptions.hpp / variant.hpp) against its specification.

The development shallowly embeds the runtime semantics of the library:

* the compile-time type-list algorithms (`type::length`, `type::has`,
  `type::first`) become functions over `List α` with decidable equality, a
  type standing in for a distinct C++ type;

* the recursive union `unified<T, Ts...>` becomes a storage cell that records
  which alternative (if any) is currently constructed and with which value;
  every storage primitive documents a precondition in the source design
  (matching alternative live at the given index), and a call that violates it
  is undefined behaviour in C++, rendered here as `none`;

* the class `variant<DefaultConstructable, T, Ts...>` becomes a structure
  pairing a storage cell with `active_index`, and each member function
  becomes a state transformer returning `Option` (with `none` for undefined
  behaviour) together with the list of construction/destruction events it
  performs, so that balanced-lifetime properties can be stated.

Since the alternative types of a variant are required to be distinct, a C++
alternative type `X` is identified with its index `first(X)` in the list.
-/

namespace Variant

/-! ## Type-list algorithms (type_algorithms.hpp) -/

namespace type

/-- Embedding of `type::length<Ts...>`: 0 for the empty list, otherwise
`1 + length` of the tail. -/
def length {α : Type} : List α → Nat
  | [] => 0
  | _ :: ts => 1 + length ts

/-- Embedding of `type::has<X, Ts...>`: `false` on the empty list, otherwise
`true` if the head is `X`, else recurse into the tail. -/
def has {α : Type} [DecidableEq α] (x : α) : List α → Bool
  | [] => false
  | t :: ts => if x = t then true else has x ts

/-- Embedding of `type::first<X, Ts...>`: 0 on the empty list, otherwise 0 if
the head is `X`, else `1 + first` of the tail. -/
def first {α : Type} [DecidableEq α] (x : α) : List α → Nat
  | [] => 0
  | t :: ts => if x = t then 0 else 1 + first x ts

end type

theorem type_length_eq {α : Type} (l : List α) : type.length l = l.length := by
  induction l with
  | nil => rfl
  | cons t ts ih => simp [type.length, ih]; omega

theorem type_has_iff_mem {α : Type} [DecidableEq α] (x : α) (l : List α) :
    type.has x l = true ↔ x ∈ l := by
  induction l with
  | nil => simp [type.has]
  | cons t ts ih =>
    by_cases h : x = t <;> simp [type.has, h, ih]

theorem type_first_of_not_mem {α : Type} [DecidableEq α] (x : α) (l : List α)
    (hx : x ∉ l) : type.first x l = type.length l := by
  induction l with
  | nil => rfl
  | cons t ts ih =>
    have hxt : x ≠ t := fun h => hx (h ▸ List.mem_cons_self t ts)
    have hxts : x ∉ ts := fun h => hx (List.mem_cons_of_mem t h)
    simp [type.first, type.length, hxt, ih hxts]

theorem type_first_lt_of_mem {α : Type} [DecidableEq α] (x : α) (l : List α)
    (hx : x ∈ l) : type.first x l < type.length l := by
  induction l with
  | nil => cases hx
  | cons t ts ih =>
    by_cases h : x = t
    · simp [type.first, type.length, h]
    · have hxts : x ∈ ts := by
        rcases List.mem_cons.mp hx with h1 | h1
        · exact absurd h1 h
        · exact h1
      have hlt := ih hxts
      simp [type.first, type.length, h]
      omega

theorem type_first_getElem {α : Type} [DecidableEq α] (x : α) (l : List α)
    (hx : x ∈ l) : l[type.first x l]? = some x := by
  induction l with
  | nil => cases hx
  | cons t ts ih =>
    by_cases h : x = t
    · simp [type.first, h]
    · have hxts : x ∈ ts := by
        rcases List.mem_cons.mp hx with h1 | h1
        · exact absurd h1 h
        · exact h1
      have : (1 : Nat) + type.first x ts = type.first x ts + 1 := by omega
      simp [type.first, h, this, ih hxts]

theorem type_first_minimal {α : Type} [DecidableEq α] (x : α) (l : List α) :
    ∀ j, j < type.first x l → l[j]? ≠ some x := by
  induction l with
  | nil => intro j hj; simp [type.first] at hj
  | cons t ts ih =>
    intro j hj
    by_cases h : x = t
    · simp [type.first, h] at hj
    · simp only [type.first, if_neg h] at hj
      match j with
      | 0 =>
        simp only [List.getElem?_cons_zero]
        intro hc
        exact h (Option.some.inj hc).symm
      | j + 1 =>
        simp only [List.getElem?_cons_succ]
        exact ih j (by omega)

/-- Claim C8: for every type list and every type `X`, `has(X)` is true iff
`X` occurs in the list; `first(X)` points at the first occurrence of `X`
(the element there is `X` and no earlier element is); when `X` does not
occur, `first(X)` evaluates to the list length; and `has(X)` holds iff
`first(X) < length`. -/
theorem type_first_has_spec {α : Type} [DecidableEq α] (l : List α) (x : α) :
    (type.has x l = true ↔ x ∈ l) ∧
    type.length l = l.length ∧
    (x ∈ l → l[type.first x l]? = some x ∧
      ∀ j, j < type.first x l → l[j]? ≠ some x) ∧
    (x ∉ l → type.first x l = type.length l) ∧
    (type.has x l = true ↔ type.first x l < type.length l) := by
  refine ⟨type_has_iff_mem x l, type_length_eq l,
    fun hx => ⟨type_first_getElem x l hx, type_first_minimal x l⟩,
    fun hx => type_first_of_not_mem x l hx, ?_⟩
  constructor
  · intro h
    exact type_first_lt_of_mem x l ((type_has_iff_mem x l).mp h)
  · intro h
    by_contra hc
    have hx : x ∉ l := fun hm => hc ((type_has_iff_mem x l).mpr hm)
    rw [type_first_of_not_mem x l hx] at h
    omega

/-- Witness for C8 at the concrete list `[3, 1, 3]` and element `1`: the
membership hypothesis of the first-occurrence conjunct is discharged by
`decide` and the claim theorem is applied directly. -/
theorem type_first_has_spec_witness :
    (1 : Nat) ∈ [3, 1, 3] ∧
    ([3, 1, 3][type.first 1 [3, 1, 3]]? = some 1 ∧
      ∀ j, j < type.first 1 [3, 1, 3] → [3, 1, 3][j]? ≠ some (1 : Nat)) :=
  ⟨by decide, (type_first_has_spec [3, 1, 3] 1).2.2.1 (by decide)⟩

/-! ## Signatures, events and the storage cell (unified.hpp) -/

/-- A signature fixes the shape of a concrete variant instantiation: `n`
alternative types, a common carrier `Val` for alternative values, the
per-alternative `==` and `!=` operators of the alternative types, and the
state a value is left in after being moved from. The alternative types of a
variant are distinct, so an alternative type is identified with its index. -/
structure Sig where
  n : Nat
  Val : Type
  beq : Nat → Val → Val → Bool
  bne : Nat → Val → Val → Bool
  moved : Nat → Val → Val

/-- Construction/destruction events, recorded so that balanced-lifetime
properties can be stated: `construct i` is a placement-new of alternative
`i`, `destruct i` an explicit destructor call on alternative `i`. -/
inductive Event where
  | construct : Nat → Event
  | destruct : Nat → Event
deriving DecidableEq

/-- Model of the recursive union `unified<T, Ts...>`: the cell holds at most
one constructed alternative at a time. `none` means no alternative is
currently constructed; `some (i, x)` means alternative `i` is live with
value `x`. The real cell keeps no such bookkeeping — the model uses it to
detect calls that violate a storage primitive's precondition, which are
undefined behaviour in C++ and are rendered as the result `none`. -/
def Unified (σ : Sig) : Type := Option (Nat × σ.Val)

namespace Unified

variable {σ : Sig}

/-- Embedding of `unified::get<X>` with `i = first(X)`: returns the member of
type `X`. Reading it is only defined when that member is the live one;
reading a non-live union member is undefined behaviour. -/
def get (i : Nat) (c : Unified σ) : Option σ.Val :=
  match c with
  | some (j, x) => if i = j then some x else none
  | none => none

/-- Embedding of `unified::destruct(index)`: runs the destructor of the
alternative live at `index`. Precondition: that alternative is live (the
recursion asserts `index == 0` at the base case, and destroying a non-live
member is undefined behaviour). -/
def destruct (i : Nat) (c : Unified σ) : Option (Unified σ × List Event) :=
  match c with
  | some (j, _) => if i = j then some (none, [Event.destruct i]) else none
  | none => none

/-- Embedding of `unified::copy(index, other)`: copy-ASSIGNS (`head =
other.head`) the alternative at `index`. Precondition: both sides have that
alternative live; assigning to a member outside its lifetime is undefined
behaviour. No construction event is performed. -/
def copy (i : Nat) (c other : Unified σ) : Option (Unified σ × List Event) :=
  match c, other with
  | some (j, _), some (k, w) =>
    if i = j ∧ i = k then some (some (i, w), []) else none
  | _, _ => none

/-- Embedding of `unified::move(index, other)`: move-ASSIGNS (`head =
std::move(other.head)`) the alternative at `index`, leaving `other`'s
alternative constructed but moved-from. Precondition: both sides live at
`index`. Returns (self, other, events). -/
def move (i : Nat) (c other : Unified σ) :
    Option (Unified σ × Unified σ × List Event) :=
  match c, other with
  | some (j, _), some (k, w) =>
    if i = j ∧ i = k then some (some (i, w), some (i, σ.moved i w), []) else none
  | _, _ => none

/-- Embedding of `unified::assign<X>(x)` with `i = first(X)`: assigns the
live alternative of type `X` from `x`. Precondition: that alternative is
live. -/
def assign (i : Nat) (x : σ.Val) (c : Unified σ) :
    Option (Unified σ × List Event) :=
  match c with
  | some (j, _) => if i = j then some (some (i, x), []) else none
  | none => none

/-- Embedding of `unified::initialise<X>(x)` with `i = first(X)`:
placement-constructs a new `X` into the cell. Precondition: the cell holds
nothing live. -/
def initialise (i : Nat) (x : σ.Val) (c : Unified σ) :
    Option (Unified σ × List Event) :=
  match c with
  | none => some (some (i, x), [Event.construct i])
  | some _ => none

/-- Embedding of `unified::initialise_copy(index, other)`: placement-copy-
constructs, at `index`, the alternative live at `index` in `other`.
Precondition: `other` is live at `index` and the cell holds nothing. -/
def initialise_copy (i : Nat) (c other : Unified σ) :
    Option (Unified σ × List Event) :=
  match c, other with
  | none, some (k, w) =>
    if i = k then some (some (i, w), [Event.construct i]) else none
  | _, _ => none

/-- Embedding of `unified::initialise_move(index, other)`: placement-move-
constructs, at `index`, the alternative live at `index` in `other`, leaving
`other`'s alternative moved-from. Precondition: `other` live at `index`,
the cell holds nothing. Returns (self, other, events). -/
def initialise_move (i : Nat) (c other : Unified σ) :
    Option (Unified σ × Unified σ × List Event) :=
  match c, other with
  | none, some (k, w) =>
    if i = k then some (some (i, w), some (i, σ.moved i w), [Event.construct i])
    else none
  | _, _ => none

/-- Embedding of `unified::is_equal(index, other)`. The source recursion is
broken: for `index > 0` the multi-alternative case calls the nonexistent
member `is_eqal` (unified.hpp line 194), so only `index == 0` — comparing
the head alternatives, both live — is defined; every other call fails. -/
def is_equal (i : Nat) (c other : Unified σ) : Option Bool :=
  match c, other with
  | some (j, v), some (k, w) =>
    if i = 0 ∧ j = 0 ∧ k = 0 then some (σ.beq 0 v w) else none
  | _, _ => none

/-- Embedding of `unified::is_not_equal(index, other)`: compares the live
alternatives at `index` with the alternative's own `!=`. Precondition: both
sides live at `index` (the base case asserts the routing index reaches 0,
and comparing non-live members is undefined behaviour). -/
def is_not_equal (i : Nat) (c other : Unified σ) : Option Bool :=
  match c, other with
  | some (j, v), some (k, w) =>
    if i = j ∧ i = k then some (σ.bne i v w) else none
  | _, _ => none

end Unified

/-! ## The tagged value (variant.hpp) -/

/-- Reason string carried by `bad_variant_access` when the checked accessor
is used on a currently inactive alternative (exceptions.hpp / variant.hpp). -/
def badAccessMsg : String := "invalid access on currently not active object!"

/-- Embedding of `class variant<DefaultConstructable, T, Ts...>`: the
`DefaultConstructable` template flag, the `active_index` field and the
`unified` storage cell. -/
structure variant (σ : Sig) where
  default_constructable : Bool
  active_index : Nat
  values : Unified σ

namespace variant

variable {σ : Sig}

/-- The sentinel index `none_initialised = type::length<T, Ts...>`. -/
abbrev none_initialised (σ : Sig) : Nat := σ.n

/-- Invariant of a well-formed variant: either `active_index` is
`none_initialised` and nothing is constructed in storage, or `active_index`
is a valid alternative index and exactly that alternative is live. -/
def WF (v : variant σ) : Prop :=
  (v.values = none ∧ v.active_index = σ.n) ∨
  (∃ j x, v.values = some (j, x) ∧ v.active_index = j ∧ j < σ.n)

/-- Embedding of the default constructor and of `variant(nullvariant_t)`
(both available only when `DefaultConstructable` holds): `active_index =
none_initialised`, no storage touched. -/
def construct_empty (σ : Sig) : variant σ :=
  ⟨true, σ.n, none⟩

/-- Embedding of the initialising constructor `variant(X && x)` with
`i = type::first<X, T, Ts...>` (membership of `X` in the list is enforced at
compile time): sets `active_index = i` and placement-constructs `x`. -/
def construct_value (σ : Sig) (dc : Bool) (i : Nat) (x : σ.Val) :
    Option (variant σ × List Event) :=
  (Unified.initialise i x none).map fun p => (⟨dc, i, p.1⟩, p.2)

/-- Embedding of the copy constructor `variant(const variant & other)`: it
copies `other.active_index` and, when live, calls `values.copy` — the
storage copy-ASSIGNMENT, whose precondition requires the destination
alternative to already be live — on the freshly constructed, still empty
storage cell. -/
def construct_copy (other : variant σ) : Option (variant σ × List Event) :=
  if other.active_index ≠ σ.n then
    (Unified.copy other.active_index none other.values).map fun p =>
      (⟨other.default_constructable, other.active_index, p.1⟩, p.2)
  else
    some (⟨other.default_constructable, other.active_index, none⟩, [])

/-- Embedding of the move constructor `variant(variant && other)`: it copies
`other.active_index` and, when live, calls `values.move` — the storage
move-ASSIGNMENT — on the freshly constructed, still empty storage cell;
afterwards, when `DefaultConstructable` holds, it destructs `other`'s
alternative and sets `other.active_index = none_initialised`. Returns
(self, other, events). -/
def construct_move (other : variant σ) :
    Option (variant σ × variant σ × List Event) :=
  if other.active_index ≠ σ.n then
    (Unified.move other.active_index none other.values).bind fun p =>
      if other.default_constructable then
        (Unified.destruct other.active_index p.2.1).map fun q =>
          (⟨other.default_constructable, other.active_index, p.1⟩,
            ⟨other.default_constructable, σ.n, q.1⟩, p.2.2 ++ q.2)
      else
        some (⟨other.default_constructable, other.active_index, p.1⟩,
          ⟨other.default_constructable, other.active_index, p.2.1⟩, p.2.2)
  else
    some (⟨other.default_constructable, other.active_index, none⟩, other, [])

/-- Embedding of the destructor `~variant()`: destructs the active
alternative if there is one. Returns the destruction events. -/
def destructor (v : variant σ) : Option (List Event) :=
  if v.active_index ≠ σ.n then
    (Unified.destruct v.active_index v.values).map fun p => p.2
  else
    some []

/-- Embedding of the copy assignment `operator=(const variant & other)`:
four cases on (self live?, other live?), then `active_index =
other.active_index`. -/
def copy_assign (self other : variant σ) : Option (variant σ × List Event) :=
  let step : Option (Unified σ × List Event) :=
    if self.active_index = σ.n ∧ other.active_index ≠ σ.n then
      Unified.initialise_copy other.active_index self.values other.values
    else if self.active_index ≠ σ.n ∧ other.active_index = σ.n then
      Unified.destruct self.active_index self.values
    else if self.active_index ≠ σ.n ∧ other.active_index ≠ σ.n then
      if self.active_index = other.active_index then
        Unified.copy self.active_index self.values other.values
      else
        (Unified.destruct self.active_index self.values).bind fun p =>
          (Unified.initialise_copy other.active_index p.1 other.values).map
            fun q => (q.1, p.2 ++ q.2)
    else
      some (self.values, [])
  step.map fun p =>
    (⟨self.default_constructable, other.active_index, p.1⟩, p.2)

/-- Embedding of the move assignment `operator=(variant && other)`: four
cases on (self live?, other live?), then `active_index =
other.active_index`, then — when `other` is live and `DefaultConstructable`
holds — `other`'s alternative is destructed and its index set to
`none_initialised`. Returns (self, other, events). -/
def move_assign (self other : variant σ) :
    Option (variant σ × variant σ × List Event) :=
  let step : Option (Unified σ × Unified σ × List Event) :=
    if self.active_index = σ.n ∧ other.active_index ≠ σ.n then
      Unified.initialise_move other.active_index self.values other.values
    else if self.active_index ≠ σ.n ∧ other.active_index = σ.n then
      (Unified.destruct self.active_index self.values).map fun p =>
        (p.1, other.values, p.2)
    else if self.active_index ≠ σ.n ∧ other.active_index ≠ σ.n then
      if self.active_index = other.active_index then
        Unified.move self.active_index self.values other.values
      else
        (Unified.destruct self.active_index self.values).bind fun p =>
          (Unified.initialise_move other.active_index p.1 other.values).map
            fun q => (q.1, q.2.1, p.2 ++ q.2.2)
    else
      some (self.values, other.values, [])
  step.bind fun p =>
    if other.active_index ≠ σ.n ∧ other.default_constructable then
      (Unified.destruct other.active_index p.2.1).map fun q =>
        (⟨self.default_constructable, other.active_index, p.1⟩,
          ⟨other.default_constructable, σ.n, q.1⟩, p.2.2 ++ q.2)
    else
      some (⟨self.default_constructable, other.active_index, p.1⟩,
        ⟨other.default_constructable, other.active_index, p.2.1⟩, p.2.2)

/-- Embedding of `operator=(nullvariant_t)` (available only when
`DefaultConstructable` holds): if live, destruct the active alternative and
set `active_index = none_initialised`; otherwise do nothing. -/
def assign_nullvariant (self : variant σ) : Option (variant σ × List Event) :=
  if self.active_index ≠ σ.n then
    (Unified.destruct self.active_index self.values).map fun p =>
      (⟨self.default_constructable, σ.n, p.1⟩, p.2)
  else
    some (self, [])

/-- Embedding of `operator=(X && x)` with `i = type::first<X, T, Ts...>`
(membership of `X` enforced at compile time): if empty, placement-construct;
if alternative `i` is active, assign in place; otherwise destruct the old
alternative and placement-construct the new one; finally `active_index = i`. -/
def assign_value (i : Nat) (x : σ.Val) (self : variant σ) :
    Option (variant σ × List Event) :=
  if self.active_index = σ.n then
    (Unified.initialise i x self.values).map fun p =>
      (⟨self.default_constructable, i, p.1⟩, p.2)
  else if self.active_index = i then
    (Unified.assign i x self.values).map fun p =>
      (⟨self.default_constructable, i, p.1⟩, p.2)
  else
    (Unified.destruct self.active_index self.values).bind fun p =>
      (Unified.initialise i x p.1).map fun q =>
        (⟨self.default_constructable, i, q.1⟩, p.2 ++ q.2)

/-- Embedding of the checked accessor `get<X>()` with
`i = type::first<X, T, Ts...>`: if `i` differs from `active_index`, throw
`bad_variant_access` (rendered as `Except.error badAccessMsg`); otherwise
read the live member. -/
def get (i : Nat) (v : variant σ) : Option (Except String σ.Val) :=
  if i ≠ v.active_index then some (Except.error badAccessMsg)
  else (Unified.get i v.values).map Except.ok

/-- Embedding of the unchecked accessor `get_unsafe<X>()` with
`i = type::first<X, T, Ts...>`: reads the member of type `X` without any
check; undefined behaviour when `X` is not the active alternative. -/
def get_unsafe (i : Nat) (v : variant σ) : Option σ.Val :=
  Unified.get i v.values

/-- Embedding of `try_get<X>()` with `i = type::first<X, T, Ts...>`: the
source builds `boost::make_optional(x_index == active_index,
std::move(values.get<X>()))`. Evaluating the argument only binds a
reference to the member of type `X` (`unified::get<X>` returns `X&` and
`std::move` is a cast); `boost::make_optional` constructs from — and thus
reads — the referenced member only when the condition is true, i.e. only
when `X` is the active alternative. The inactive and the empty case
therefore return an absent optional without touching storage. -/
def try_get (i : Nat) (v : variant σ) : Option (Option σ.Val) :=
  if i = v.active_index then (Unified.get i v.values).map some
  else some none

/-- Embedding of `operator==(const variant &, const variant &)`: equal
active indices, and then either both empty or the live alternatives compare
equal (the right operand of `&&` is only evaluated when the indices agree,
and the `is_equal` call only when they are not `none_initialised`). -/
def eq_op (a b : variant σ) : Option Bool :=
  if a.active_index = b.active_index then
    if a.active_index = σ.n then some true
    else Unified.is_equal a.active_index a.values b.values
  else
    some false

/-- Embedding of `operator!=(const variant &, const variant &)`: different
active indices, OR `values.is_not_equal(active_index, ...)`. Unlike
`operator==`, there is no guard for the case in which both operands are
empty: when the indices agree, `is_not_equal` is always evaluated, with
`active_index` as the routing index. -/
def neq_op (a b : variant σ) : Option Bool :=
  if a.active_index ≠ b.active_index then some true
  else Unified.is_not_equal a.active_index a.values b.values

/-- Embedding of `operator==(const variant &, nullvariant_t)`. -/
def eq_nullvariant (a : variant σ) : Bool :=
  a.active_index = σ.n

/-- Embedding of `operator!=(const variant &, nullvariant_t)`. -/
def neq_nullvariant (a : variant σ) : Bool :=
  a.active_index ≠ σ.n

end variant

/-! ## Concrete instantiation used for witnesses and failing inputs:
a two-alternative list with natural-number payloads, e.g.
`variant<DC, unsigned, bool-like>`, where both alternatives compare with the
ordinary equality and a moved-from value reads as `0`. -/

/-- A concrete two-alternative signature. -/
@[reducible] def sigNat : Sig where
  n := 2
  Val := Nat
  beq := fun _ a b => a == b
  bne := fun _ a b => a != b
  moved := fun _ _ => 0

/-- An empty nullable variant over `sigNat`. -/
def vEmpty : variant sigNat := variant.construct_empty sigNat

/-- A nullable variant over `sigNat` holding value `42` at alternative 0. -/
def vFst42 : variant sigNat := ⟨true, 0, some (0, 42)⟩

/-- A nullable variant over `sigNat` holding value `3` at alternative 1. -/
def vSnd3 : variant sigNat := ⟨true, 1, some (1, 3)⟩

/-- A non-nullable variant over `sigNat` holding value `5` at alternative 0. -/
def vNN5 : variant sigNat := ⟨false, 0, some (0, 5)⟩

/-- A non-nullable variant over `sigNat` holding value `7` at alternative 1. -/
def vNN7 : variant sigNat := ⟨false, 1, some (1, 7)⟩

/-! ## Claim theorems -/

/-- Claim C1 fails on the code. For two empty nullable variants `==` does
yield `true`, but `!=` is not its negation: `operator!=` has no guard for
the both-empty case, so it calls `values.is_not_equal` with the sentinel
index `none_initialised` on storage cells in which nothing is constructed —
a precondition violation (assertion failure / undefined behaviour, rendered
`none`) instead of the `false` the claim requires. Moreover, for two
variants live at any alternative index other than 0, `==` itself is
undefined, because `unified::is_equal` recurses into the nonexistent member
`is_eqal`. -/
theorem neq_on_empty_variants_is_undefined :
    variant.eq_op vEmpty vEmpty = some true ∧
    variant.neq_op vEmpty vEmpty = none ∧
    variant.eq_op vSnd3 vSnd3 = none := by
  refine ⟨rfl, rfl, rfl⟩

/-- Claim C2 fails on the code. The copy constructor copies
`other.active_index` but then calls `values.copy` — the storage
copy-ASSIGNMENT, whose precondition requires the destination alternative to
be live — on its freshly created, still unconstructed storage cell, instead
of `values.initialise_copy`. Copy construction from any live variant is
therefore a precondition violation (undefined behaviour for non-trivial
alternative types), rendered `none`. -/
theorem copy_construct_from_live_is_undefined :
    variant.construct_copy vFst42 = none := by
  rfl

/-- Claim C3 fails on the code. The move constructor calls `values.move` —
the storage move-ASSIGNMENT, whose precondition requires the destination
alternative to be live — on its freshly created, still unconstructed
storage cell, instead of `values.initialise_move`. Move construction from
any live nullable variant is therefore a precondition violation (undefined
behaviour), rendered `none`; only the move-ASSIGNMENT operator implements
the claimed behaviour. -/
theorem move_construct_from_live_nullable_is_undefined :
    variant.construct_move vFst42 = none := by
  rfl

/-- Claim C4: for a well-formed variant and a listed alternative type `X`
(index `i = first(X) < N`), `try_get<X>()` returns a present optional
holding the currently stored value exactly when `X` is the active
alternative (`i = active_index`), and an absent optional in every other
case — wrong alternative active or empty variant. -/
theorem try_get_spec (σ : Sig) (v : variant σ) (i : Nat)
    (hwf : v.WF) (hi : i < σ.n) :
    (i = v.active_index → ∃ x, v.values = some (i, x) ∧
      variant.try_get i v = some (some x)) ∧
    (i ≠ v.active_index → variant.try_get i v = some none) := by
  constructor
  · intro hia
    rcases hwf with ⟨hv, ha⟩ | ⟨j, y, hv, ha, hj⟩
    · exact absurd (hia.trans ha) (by omega)
    · have hij : i = j := by omega
      subst hij
      refine ⟨y, hv, ?_⟩
      simp only [variant.try_get]
      rw [if_pos hia, hv]
      simp [Unified.get]
  · intro hia
    simp only [variant.try_get]
    rw [if_neg hia]

/-- Witness for C4: on the variant holding `42` at alternative 0, `try_get`
at alternative 0 yields the present optional holding `42` and `try_get` at
alternative 1 yields the absent optional; on the empty variant, `try_get`
at alternative 0 also yields the absent optional. -/
theorem try_get_spec_witness :
    variant.WF vFst42 ∧ variant.WF vEmpty ∧ 0 < sigNat.n ∧ 1 < sigNat.n ∧
    ((0 = vFst42.active_index → ∃ x, vFst42.values = some (0, x) ∧
        variant.try_get 0 vFst42 = some (some x)) ∧
      (0 ≠ vFst42.active_index → variant.try_get 0 vFst42 = some none)) ∧
    ((1 = vFst42.active_index → ∃ x, vFst42.values = some (1, x) ∧
        variant.try_get 1 vFst42 = some (some x)) ∧
      (1 ≠ vFst42.active_index → variant.try_get 1 vFst42 = some none)) ∧
    ((0 = vEmpty.active_index → ∃ x, vEmpty.values = some (0, x) ∧
        variant.try_get 0 vEmpty = some (some x)) ∧
      (0 ≠ vEmpty.active_index → variant.try_get 0 vEmpty = some none)) :=
  ⟨Or.inr ⟨0, 42, rfl, rfl, by decide⟩, Or.inl ⟨rfl, rfl⟩, by decide, by decide,
    try_get_spec sigNat vFst42 0
      (Or.inr ⟨0, 42, rfl, rfl, by decide⟩) (by decide),
    try_get_spec sigNat vFst42 1
      (Or.inr ⟨0, 42, rfl, rfl, by decide⟩) (by decide),
    try_get_spec sigNat vEmpty 0 (Or.inl ⟨rfl, rfl⟩) (by decide)⟩

/-- Claim C7 fails on the code. The invariant "`active_index = i < N` iff
exactly the `i`-th alternative is constructed in storage" is not preserved
by every public operation: copy construction from a well-formed live
variant performs no construction at all (it copy-assigns into the
unconstructed fresh cell, a precondition violation rendered `none`), so the
resulting object would carry a live `active_index` over unconstructed
storage and its destructor would destruct a never-constructed alternative —
construction and destruction are not balanced. -/
theorem copy_construct_breaks_invariant :
    variant.WF vNN5 ∧ vNN5.active_index ≠ Variant.sigNat.n ∧
    variant.construct_copy vNN5 = none := by
  refine ⟨Or.inr ⟨0, 5, rfl, rfl, by decide⟩, by decide, rfl⟩

/-- Claim C10 fails on the code. For a non-nullable source the move
constructor indeed skips the `DefaultConstructable` clean-up, but the
operation as a whole is already undefined before that point: it
move-ASSIGNS (`values.move`) into its own unconstructed storage cell, a
precondition violation (undefined behaviour, rendered `none`), after which
no guarantee about the source — neither its index nor its liveness nor its
single destructibility — survives. Only move assignment leaves the
non-nullable source live and destructible as claimed. -/
theorem move_construct_from_live_nonnullable_is_undefined :
    variant.construct_move vNN7 = none := by
  rfl

/-- Claim C5: assigning a raw value `x` of listed alternative type `X`
(index `i = first(X)`) to a well-formed variant succeeds; the result holds
`x` at alternative `i` with `active_index = i`; and the lifetime events are
exactly: a single construction when the variant was empty, none when
alternative `i` was already active (in-place assignment), and otherwise a
single destruction of the old alternative followed by a single construction
of the new one. -/
theorem assign_value_spec (σ : Sig) (v : variant σ) (i : Nat) (x : σ.Val)
    (hwf : v.WF) (hi : i < σ.n) :
    variant.assign_value i x v =
      some (⟨v.default_constructable, i, some (i, x)⟩,
        if v.active_index = σ.n then [Event.construct i]
        else if v.active_index = i then []
        else [Event.destruct v.active_index, Event.construct i]) := by
  rcases hwf with ⟨hv, ha⟩ | ⟨j, y, hv, ha, hj⟩
  · simp [variant.assign_value, Unified.initialise, hv, ha]
  · have hne : v.active_index ≠ σ.n := by omega
    have hjn : j ≠ σ.n := by omega
    by_cases hij : v.active_index = i
    · have hji : i = j := by omega
      simp [variant.assign_value, Unified.assign, hv, hne, hij, hji, hjn]
    · have hji : j ≠ i := by omega
      simp [variant.assign_value, Unified.destruct, Unified.initialise,
        hv, hne, hij, ha, hjn, hji]

/-- Witness for C5: assigning value `9` at alternative 1 to the variant
holding `42` at alternative 0 destructs alternative 0 exactly once and
constructs alternative 1 exactly once, ending with `active_index = 1`. -/
theorem assign_value_spec_witness :
    variant.WF vFst42 ∧ 1 < sigNat.n ∧
    variant.assign_value 1 9 vFst42 =
      some (⟨true, 1, some (1, 9)⟩,
        [Event.destruct 0, Event.construct 1]) :=
  ⟨Or.inr ⟨0, 42, rfl, rfl, by decide⟩, by decide, by
    exact assign_value_spec sigNat vFst42 1 9
      (Or.inr ⟨0, 42, rfl, rfl, by decide⟩) (by decide)⟩

/-- Claim C6: for a well-formed variant and a listed alternative type `X`
(index `i = first(X) < N`), the checked accessor returns the live value
exactly when `i` equals the active index, and in every other case — wrong
alternative active or empty variant — it raises `bad_variant_access`,
never returning a value. -/
theorem get_checked_spec (σ : Sig) (v : variant σ) (i : Nat)
    (hwf : v.WF) (hi : i < σ.n) :
    (i = v.active_index → ∃ x, v.values = some (i, x) ∧
      variant.get i v = some (Except.ok x)) ∧
    (i ≠ v.active_index → variant.get i v =
      some (Except.error badAccessMsg)) := by
  constructor
  · intro hia
    rcases hwf with ⟨hv, ha⟩ | ⟨j, y, hv, ha, hj⟩
    · exact absurd (hia.trans ha) (by omega)
    · have hij : i = j := by omega
      subst hij
      refine ⟨y, hv, ?_⟩
      simp only [variant.get]
      rw [if_neg (not_not_intro hia), hv]
      simp [Unified.get]
  · intro hia
    simp only [variant.get]
    rw [if_pos hia]

/-- Witness for C6: on the variant holding `42` at alternative 0, checked
access at alternative 0 returns the stored value and checked access at
alternative 1 raises `bad_variant_access`. -/
theorem get_checked_spec_witness :
    variant.WF vFst42 ∧ 0 < sigNat.n ∧ 1 < sigNat.n ∧
    ((0 = vFst42.active_index → ∃ x, vFst42.values = some (0, x) ∧
        variant.get 0 vFst42 = some (Except.ok x)) ∧
      (0 ≠ vFst42.active_index → variant.get 0 vFst42 =
        some (Except.error badAccessMsg))) ∧
    ((1 = vFst42.active_index → ∃ x, vFst42.values = some (1, x) ∧
        variant.get 1 vFst42 = some (Except.ok x)) ∧
      (1 ≠ vFst42.active_index → variant.get 1 vFst42 =
        some (Except.error badAccessMsg))) :=
  ⟨Or.inr ⟨0, 42, rfl, rfl, by decide⟩, by decide, by decide,
    get_checked_spec sigNat vFst42 0
      (Or.inr ⟨0, 42, rfl, rfl, by decide⟩) (by decide),
    get_checked_spec sigNat vFst42 1
      (Or.inr ⟨0, 42, rfl, rfl, by decide⟩) (by decide)⟩

/-- Claim C9: assigning the empty sentinel to a well-formed nullable
variant destructs the live alternative if there is one (exactly one
destruction event, none when already empty) and leaves the variant empty;
the operation is idempotent — on an already-empty variant it changes
nothing, and applying it to its own result is a no-op, so assigning twice
equals assigning once. -/
theorem assign_nullvariant_spec (σ : Sig) (v : variant σ)
    (hwf : v.WF) (hdc : v.default_constructable = true) :
    ∃ w, variant.assign_nullvariant v =
        some (w, if v.active_index = σ.n then []
          else [Event.destruct v.active_index]) ∧
      w.active_index = σ.n ∧ w.values = none ∧
      w.default_constructable = v.default_constructable ∧
      (v.active_index = σ.n → w = v) ∧
      variant.assign_nullvariant w = some (w, []) := by
  rcases hwf with ⟨hv, ha⟩ | ⟨j, y, hv, ha, hj⟩
  · refine ⟨v, ?_, ha, hv, rfl, fun _ => rfl, ?_⟩
    · simp [variant.assign_nullvariant, ha]
    · simp [variant.assign_nullvariant, ha]
  · have hne : v.active_index ≠ σ.n := by omega
    have hjn : j ≠ σ.n := by omega
    refine ⟨⟨v.default_constructable, σ.n, none⟩, ?_, rfl, rfl, rfl,
      fun h => absurd h hne, ?_⟩
    · simp [variant.assign_nullvariant, hne, Unified.destruct, hv, ha, hjn]
    · simp [variant.assign_nullvariant]

/-- Witness for C9: assigning the empty sentinel to the nullable variant
holding `3` at alternative 1 destructs that alternative once, leaves the
variant empty, and a second sentinel assignment is a no-op. -/
theorem assign_nullvariant_spec_witness :
    variant.WF vSnd3 ∧ vSnd3.default_constructable = true ∧
    (∃ w, variant.assign_nullvariant vSnd3 =
        some (w, if vSnd3.active_index = sigNat.n then []
          else [Event.destruct vSnd3.active_index]) ∧
      w.active_index = sigNat.n ∧ w.values = none ∧
      w.default_constructable = vSnd3.default_constructable ∧
      (vSnd3.active_index = sigNat.n → w = vSnd3) ∧
      variant.assign_nullvariant w = some (w, [])) :=
  ⟨Or.inr ⟨1, 3, rfl, rfl, by decide⟩, rfl,
    assign_nullvariant_spec sigNat vSnd3
      (Or.inr ⟨1, 3, rfl, rfl, by decide⟩) rfl⟩

end Variant
